import Mathlib

/-!
Verification of `scoping_demo.cpp` (static vs. dynamic scoping interpreter).

Shallow embedding of the C++ tree-walking interpreter in
`src/assignment_3/scoping_demo.cpp`.  The C++ program heap-allocates
`Environment` objects and passes raw pointers; we model the heap as a list of
`Environment` records indexed by allocation order (a fresh environment is
appended at the end, so its id is the old length, and a parent pointer is the
id of an older environment).  Mutation of an environment through a pointer
becomes functional update of the list at that id, which preserves the C++
visibility semantics: a `Function` stores the *id* of its definition
environment, so later writes into that environment are seen through the id,
exactly as later writes through a C++ pointer are.

The C++ functions are recursive with no termination guarantee (a `CALL` chain
can recurse forever); the embedding adds an explicit `fuel` counter that is
consumed once per function invocation (`Function::call`), returning
`Err.outOfFuel` when exhausted.  All definitions are structurally recursive so
that concrete runs evaluate inside the kernel.
-/

/-- Expressions (`class Expr`, scoping_demo.cpp lines 31-41): an int literal
(`INT_LIT`, carrying `int_val`) or a variable reference (`VAR`, carrying
`var_name`). -/
inductive Expr where
  | intLit (int_val : Int)
  | var (var_name : String)
deriving DecidableEq, Repr

/-- Statements (`class Statement`, lines 43-59): `ASSIGN name, expr`,
`PRINT expr`, `CALL name`, `DEF name, body`.  `defn` stands for the C++
`DEF` tag (`def` is reserved in Lean). -/
inductive Statement where
  | assign (name : String) (expr : Expr)
  | print (expr : Expr)
  | callStmt (name : String)
  | defn (name : String) (body : List Statement)

/-- A function object (`class Function`, lines 87-96): its name, its body,
and the id of the environment captured at definition time
(`definition_env`, a raw pointer in C++, here an id into the heap). -/
structure Function where
  name : String
  body : List Statement
  definition_env : Nat

/-- The tag of a `Value` (`enum Type { INT, FUNC }`, line 20). -/
inductive ValueType where
  | INT
  | FUNC
deriving DecidableEq, Repr

/-- A runtime value (`class Value`, lines 18-28): tag plus both payload
fields, mirroring the C++ layout.  `int_val` is an `Option Int` because the
`Value(Function*)` constructor (line 27) leaves `int_val` *uninitialized*;
`none` models that indeterminate content.  `func_val` is `Option Function`
modelling a possibly-null `Function*` (functions are immutable after
creation, so we store the object rather than a pointer). -/
structure Value where
  type : ValueType
  int_val : Option Int
  func_val : Option Function

/-- `Value() : type(INT), int_val(0), func_val(nullptr)` (line 25) — the
default-constructed value, used for `Value result;` in `Function::call`. -/
def Value.empty : Value := { type := .INT, int_val := some 0, func_val := none }

/-- `Value(int v) : type(INT), int_val(v), func_val(nullptr)` (line 26). -/
def Value.ofInt (v : Int) : Value := { type := .INT, int_val := some v, func_val := none }

/-- `Value(Function* f) : type(FUNC), func_val(f)` (line 27).  Note the C++
constructor does NOT initialize `int_val`; we record that as `none`. -/
def Value.ofFunc (f : Function) : Value := { type := .FUNC, int_val := none, func_val := some f }

/-- One environment object (`class Environment`, lines 61-86): the local
variable table (`std::unordered_map<std::string, Value> vars`; modelled as an
association list with unique keys — lookup takes the first hit and update
replaces in place) and the parent pointer (`Environment* parent`), here the
id of an older environment or `none` for the root. -/
structure Environment where
  vars : List (String × Value)
  parent : Option Nat

/-- Runtime failures.  `unboundVariable name` is the C++
`throw std::runtime_error("Variable '" + name + "' not found")` (line 79);
`notAFunction name` is `throw std::runtime_error("'" + name + "' is not a function")`
(line 145).  The remaining constructors are artifacts of the embedding that
never arise on the runs we verify: `invalidEnv` models dereferencing a
dangling/cyclic environment pointer (undefined behavior in C++),
`invalidFunction` models calling through a null `Function*`, and `outOfFuel`
models unbounded `CALL` recursion (a stack overflow in C++). -/
inductive Err where
  | unboundVariable (name : String)
  | notAFunction (name : String)
  | invalidEnv
  | invalidFunction (name : String)
  | outOfFuel
deriving DecidableEq, Repr

/-- The global interpreter state: the heap of all environments allocated so
far (index = id) and the integers printed so far (`std::cout << value.int_val`,
so one `Option Int` per executed PRINT; `none` is an indeterminate integer
printed from an uninitialized field). -/
structure State where
  envs : List Environment
  output : List (Option Int)

/-- `vars.find(name)` on the association-list model of the map. -/
def mapFind : List (String × Value) → String → Option Value
  | [], _ => none
  | (k, v) :: rest, name => if k = name then some v else mapFind rest name

/-- `vars[name] = value`: replace the binding for `name` if present,
otherwise append it. -/
def mapSet : List (String × Value) → String → Value → List (String × Value)
  | [], name, value => [(name, value)]
  | (k, v) :: rest, name, value =>
      if k = name then (name, value) :: rest else (k, v) :: mapSet rest name value

/-- `Environment::get` (lines 70-80): look in the local table, else delegate
to the parent, else throw.  The extra `fuel` argument bounds the number of
parent hops (the C++ loop is unbounded; on the acyclic heaps the interpreter
builds, a chain starting at id `e` makes at most `e + 1` hops, which is the
fuel `State.get` supplies). -/
def envGet (envs : List Environment) : Nat → Nat → String → Except Err Value
  | 0, _, _ => .error .invalidEnv
  | fuel + 1, e, name =>
      match envs[e]? with
      | none => .error .invalidEnv
      | some d =>
          match mapFind d.vars name with
          | some v => .ok v
          | none =>
              match d.parent with
              | some p => envGet envs fuel p name
              | none => .error (.unboundVariable name)

/-- `Environment::set` (lines 82-85): update the local table of the
environment with id `e`; nothing else on the heap changes. -/
def envSet : List Environment → Nat → String → Value → List Environment
  | [], _, _, _ => []
  | d :: rest, 0, name, value => { d with vars := mapSet d.vars name value } :: rest
  | d :: rest, e + 1, name, value => d :: envSet rest e name value

/-- `env->get(name)` where `env` is the environment id `e` in state `st`. -/
def State.get (st : State) (e : Nat) (name : String) : Except Err Value :=
  envGet st.envs (e + 1) e name

/-- `env->set(name, value)` where `env` is the environment id `e`. -/
def State.set (st : State) (e : Nat) (name : String) (value : Value) : State :=
  { st with envs := envSet st.envs e name value }

/-- `execute_expr` (lines 160-171): an int literal wraps itself; a variable
reference delegates to `Environment::get`.  The C++ signature also receives
the (unused) scoping mode, kept here for fidelity.  Expressions never mutate
the state. -/
def execute_expr (expr : Expr) (env : Nat) (_mode : String) (st : State) : Except Err Value :=
  match expr with
  | .intLit v => .ok (Value.ofInt v)
  | .var name => st.get env name

/-- The body of `execute_stmt` (lines 125-158), parametrized by the function
`recCall` used to perform `func_val.func_val->call(env, scoping_mode)` — the
fuel-tying knot is closed in `Function.call` below.
* ASSIGN (lines 127-131): evaluate, `env->set`, return the value.
* PRINT (lines 133-138): evaluate, append `value.int_val` to the output,
  return the value.
* CALL (lines 140-148): `env->get(name)`; if the tag is not FUNC throw
  `notAFunction`; otherwise invoke the function, passing the *current*
  environment as the call-site environment.
* DEF (lines 150-155): build a `Function` capturing the current environment
  id as `definition_env`, bind it via `env->set`, return it. -/
def stepStmt (recCall : Function → Nat → String → State → Except Err Value × State)
    (stmt : Statement) (env : Nat) (mode : String) (st : State) :
    Except Err Value × State :=
  match stmt with
  | .assign name expr =>
      match execute_expr expr env mode st with
      | .ok value => (.ok value, st.set env name value)
      | .error e => (.error e, st)
  | .print expr =>
      match execute_expr expr env mode st with
      | .ok value => (.ok value, { st with output := st.output ++ [value.int_val] })
      | .error e => (.error e, st)
  | .callStmt name =>
      match st.get env name with
      | .ok func_val =>
          if func_val.type = ValueType.FUNC then
            match func_val.func_val with
            | some f => recCall f env mode st
            | none => (.error (.invalidFunction name), st)
          else (.error (.notAFunction name), st)
      | .error e => (.error e, st)
  | .defn name body =>
      let f : Function := { name := name, body := body, definition_env := env }
      let v := Value.ofFunc f
      (.ok v, st.set env name v)

/-- The statement loop of `Function::call` (lines 114-117) and of
`run_program` (lines 184-186): execute the statements in order, threading the
state and keeping the last produced value (`acc` is the current `result`,
initially `Value()`); a thrown error aborts the remainder of the sequence. -/
def stepStmts (recCall : Function → Nat → String → State → Except Err Value × State) :
    List Statement → Nat → String → State → Value → Except Err Value × State
  | [], _, _, st, acc => (.ok acc, st)
  | s :: rest, env, mode, st, _acc =>
      match stepStmt recCall s env mode st with
      | (.ok v, st') => stepStmts recCall rest env mode st' v
      | (.error e, st') => (.error e, st')

/-- `Function::call` (lines 98-121): choose the parent environment — the
definition environment when `scoping_mode == "static"`, otherwise the
call-site environment — allocate a fresh empty child environment with that
parent (`new Environment(...)`, so its id is the current heap size), and
execute the body statements in it, starting from `Value result;`.  Each
invocation consumes one unit of fuel; nested calls made by the body run with
the remaining fuel. -/
def Function.call : Nat → Function → Nat → String → State → Except Err Value × State
  | 0, _, _, _, st => (.error .outOfFuel, st)
  | fuel + 1, f, call_env, mode, st =>
      stepStmts (Function.call fuel) f.body st.envs.length mode
        { st with
          envs := st.envs ++
            [{ vars := [],
               parent := some (if mode = "static" then f.definition_env else call_env) }] }
        Value.empty

/-- `execute_stmt` (lines 125-158) with the call recursion bounded by `fuel`
invocations. -/
def execute_stmt (fuel : Nat) (stmt : Statement) (env : Nat) (mode : String) (st : State) :
    Except Err Value × State :=
  stepStmt (Function.call fuel) stmt env mode st

/-- A statement sequence executed with the call recursion bounded by `fuel`
invocations. -/
def execute_stmts (fuel : Nat) (stmts : List Statement) (env : Nat) (mode : String)
    (st : State) (acc : Value) : Except Err Value × State :=
  stepStmts (Function.call fuel) stmts env mode st acc

/-- `run_program` (lines 173-190): allocate a fresh global environment (id 0
in a fresh heap) and execute the program's statements in it. -/
def run_program (fuel : Nat) (program : List Statement) (mode : String) :
    Except Err Value × State :=
  execute_stmts fuel program 0 mode
    { envs := [{ vars := [], parent := none }], output := [] } Value.empty

/-- The example program (lines 198-207):
`x = 10; def f(): print(x); def g(): x = 20; f()`. -/
def example_program : List Statement :=
  [ .assign "x" (.intLit 10),
    .defn "f" [.print (.var "x")],
    .defn "g" [.assign "x" (.intLit 20), .callStmt "f"] ]

/-- `Statement call_g(Statement::CALL, "g")` (line 217). -/
def call_g : Statement := .callStmt "g"

/-- One full run of `main` for a given mode (lines 209-233): run the example
program against a fresh, independent global environment, then execute a
top-level `call g` in the resulting global environment.  (In C++ an
exception from `run_program` would propagate; we stop there likewise.) -/
def main_run (mode : String) (fuel : Nat) : Except Err Value × State :=
  match run_program fuel example_program mode with
  | (.ok _, st) => execute_stmt fuel call_g 0 mode st
  | (.error e, st) => (.error e, st)

/-- Whether a run finished without throwing. -/
def resOk (r : Except Err Value × State) : Bool :=
  match r.1 with
  | .ok _ => true
  | .error _ => false

/-! ## Helper lemmas about the environment model -/

/-- After `vars[name] = value`, `vars.find(name)` yields `value`. -/
theorem mapFind_mapSet_self : ∀ (m : List (String × Value)) (name : String) (value : Value),
    mapFind (mapSet m name value) name = some value := by
  intro m name value
  induction m with
  | nil => simp [mapSet, mapFind]
  | cons kv rest ih =>
      obtain ⟨k, v⟩ := kv
      by_cases h : k = name
      · simp [mapSet, mapFind, h]
      · simp [mapSet, mapFind, h, ih]

/-- `envSet` rewrites the targeted environment's local table in place. -/
theorem envSet_getElem_self : ∀ (envs : List Environment) (e : Nat) (d : Environment)
    (name : String) (value : Value), envs[e]? = some d →
    (envSet envs e name value)[e]? = some { d with vars := mapSet d.vars name value } := by
  intro envs
  induction envs with
  | nil => intro e d name value h; simp at h
  | cons d0 rest ih =>
      intro e d name value h
      cases e with
      | zero => simp at h; simp [envSet, h]
      | succ e' => simp at h; simpa [envSet] using ih e' d name value h

/-- `envSet` leaves every other environment on the heap untouched. -/
theorem envSet_getElem_ne : ∀ (envs : List Environment) (e : Nat) (name : String)
    (value : Value) (e' : Nat), e' ≠ e →
    (envSet envs e name value)[e']? = envs[e']? := by
  intro envs
  induction envs with
  | nil => intro e name value e' _; simp [envSet]
  | cons d0 rest ih =>
      intro e name value e' hne
      cases e with
      | zero =>
          cases e' with
          | zero => exact absurd rfl hne
          | succ j => simp [envSet]
      | succ e'' =>
          cases e' with
          | zero => simp [envSet]
          | succ j => simpa [envSet] using ih e'' name value j (by omega)

/-! ## C4 -/

/-- C4: Local-shadow invariant.  For every environment `e` on the heap,
immediately after `e.set(n, v)` a lookup of `n` starting at `e` returns `v`
(with any fuel, hence regardless of what any ancestor binds for `n`), and
`set` rewrites only `e`'s local table: every other environment on the heap —
in particular every ancestor — is byte-for-byte unchanged. -/
theorem set_then_get_local_shadow :
    ∀ (envs : List Environment) (e : Nat) (d : Environment) (n : String) (v : Value)
      (fuel : Nat), envs[e]? = some d →
      envGet (envSet envs e n v) (fuel + 1) e n = .ok v ∧
      ∀ e', e' ≠ e → (envSet envs e n v)[e']? = envs[e']? := by
  intro envs e d n v fuel h
  constructor
  · simp [envGet, envSet_getElem_self envs e d n v h, mapFind_mapSet_self]
  · intro e' hne
    exact envSet_getElem_ne envs e n v e' hne

/-- A concrete heap: a root binding `x`, and a child environment with an
empty local table whose parent is the root. -/
def wEnvs : List Environment :=
  [{ vars := [("x", Value.ofInt 1)], parent := none }, { vars := [], parent := some 0 }]

/-- C4 witness: on the concrete heap `wEnvs`, setting `x := 7` in the child
(id 1) makes a lookup of `x` at the child return `7`, although the root
binds `x = 1`. -/
theorem set_then_get_local_shadow_witness :
    envGet (envSet wEnvs 1 "x" (Value.ofInt 7)) 2 1 "x" = .ok (Value.ofInt 7) :=
  (set_then_get_local_shadow wEnvs 1 { vars := [], parent := some 0 } "x"
    (Value.ofInt 7) 1 rfl).1

/-! ## C5 -/

/-- C5: Chain delegation and unbound failure.  If environment `e` has no
local binding for `n`, then a lookup at `e` is exactly a lookup at its
parent (when one exists), and fails with `unboundVariable n` at the chain's
root (no parent); moreover evaluating the expression `VariableRef n` is
exactly `Environment::get`, so when the chain resolves nothing the
expression fails with `unboundVariable n` — no default value is produced. -/
theorem get_chain_delegation :
    ∀ (envs : List Environment) (e : Nat) (d : Environment) (n : String) (fuel : Nat),
      envs[e]? = some d → mapFind d.vars n = none →
      (∀ p, d.parent = some p → envGet envs (fuel + 1) e n = envGet envs fuel p n) ∧
      (d.parent = none → envGet envs (fuel + 1) e n = .error (.unboundVariable n)) ∧
      (∀ mode st, st.envs = envs → st.get e n = .error (.unboundVariable n) →
        execute_expr (.var n) e mode st = .error (.unboundVariable n)) := by
  intro envs e d n fuel h hmiss
  refine ⟨?_, ?_, ?_⟩
  · intro p hp
    simp [envGet, h, hmiss, hp]
  · intro hp
    simp [envGet, h, hmiss, hp]
  · intro mode st _ hget
    simpa [execute_expr] using hget

/-- A one-environment heap binding nothing: the root with an empty table. -/
def wEnvsRoot : List Environment := [{ vars := [], parent := none }]

/-- C5 witness: on `wEnvs`, a lookup of `x` at the child (empty table,
parent = root) delegates to the root; on the bare root heap `wEnvsRoot`, a
lookup of `y` fails with `unboundVariable "y"`. -/
theorem get_chain_delegation_witness :
    envGet wEnvs 2 1 "x" = envGet wEnvs 1 0 "x" ∧
    envGet wEnvsRoot 2 0 "y" = .error (.unboundVariable "y") :=
  ⟨(get_chain_delegation wEnvs 1 { vars := [], parent := some 0 } "x" 1 rfl rfl).1 0 rfl,
   (get_chain_delegation wEnvsRoot 0 { vars := [], parent := none } "y" 1 rfl rfl).2.1 rfl⟩


/-! ## C1 and C2: the canonical end-to-end runs -/

/-- C1: Static-scoping property.  Running the canonical example program on a
fresh root environment and then executing a top-level `call g` under the
`"static"` mode emits exactly one integer, `10`: `f`'s free `x` resolves
through `f`'s definition environment (the global one, where `x = 10`),
unaffected by the `x = 20` that `g`'s invocation set locally. -/
theorem static_run_prints_10 :
    (main_run "static" 100).2.output = [some 10] ∧
    resOk (main_run "static" 100) = true := by
  decide

/-- C2: Dynamic-scoping property.  The identical program on its own fresh
root environment, followed by a top-level `call g`, under the `"dynamic"`
mode emits exactly one integer, `20`: `f`'s free `x` resolves through the
call-site chain, where `g`'s invocation environment binds `x = 20`. -/
theorem dynamic_run_prints_20 :
    (main_run "dynamic" 100).2.output = [some 20] ∧
    resOk (main_run "dynamic" 100) = true := by
  decide

/-! ## C3: the invocation protocol -/

/-- C3: `Function::call` allocates a fresh, empty child environment (its id
is the current heap size, which names no existing environment) and executes
the body in it; the child's parent is the function's definition environment
exactly when the mode is `"static"`, and the call-site environment when it
is `"dynamic"`; the single `if` on the mode that picks the parent is the
only place the invocation protocol consults the mode. -/
theorem function_call_scoping_contract :
    ∀ (fuel : Nat) (f : Function) (call_env : Nat) (st : State) (mode : String),
      st.envs[st.envs.length]? = none ∧
      Function.call (fuel + 1) f call_env mode st =
        execute_stmts fuel f.body st.envs.length mode
          { st with
            envs := st.envs ++
              [{ vars := [],
                 parent := some (if mode = "static" then f.definition_env else call_env) }] }
          Value.empty ∧
      (mode = "static" →
        (if mode = "static" then f.definition_env else call_env) = f.definition_env) ∧
      (mode = "dynamic" →
        (if mode = "static" then f.definition_env else call_env) = call_env) := by
  intro fuel f call_env st mode
  refine ⟨?_, rfl, ?_, ?_⟩
  · simp
  · intro h; rw [if_pos h]
  · intro h; subst h; rw [if_neg (by decide)]

/-- A tiny function and state used to instantiate universally quantified
claim theorems at concrete inputs. -/
def wFun : Function := { name := "h", body := [], definition_env := 5 }

/-- A one-environment initial state for concrete instantiations. -/
def wSt : State := { envs := [{ vars := [], parent := none }], output := [] }

/-- C3 witness: the parent chosen for `wFun` is its definition environment
(`5`) under `"static"` and the call-site environment (`1`) under
`"dynamic"`. -/
theorem function_call_scoping_contract_witness :
    (if ("static" : String) = "static" then wFun.definition_env else 1) = wFun.definition_env ∧
    (if ("dynamic" : String) = "static" then wFun.definition_env else 1) = 1 :=
  ⟨(function_call_scoping_contract 0 wFun 1 wSt "static").2.2.1 rfl,
   (function_call_scoping_contract 0 wFun 1 wSt "dynamic").2.2.2 rfl⟩

/-! ## C6: dispatch of the CALL statement -/

/-- `Environment::get` can fail with `unboundVariable` (or an embedding
artifact for ill-formed heaps), but never with `notAFunction`. -/
theorem envGet_ne_notAFunction :
    ∀ (envs : List Environment) (fuel e : Nat) (name : String),
      envGet envs fuel e name ≠ .error (.notAFunction name) := by
  intro envs fuel
  induction fuel with
  | zero => intro e name h; simp [envGet] at h
  | succ fuel ih =>
      intro e name h
      cases hd : envs[e]? with
      | none => simp [envGet, hd] at h
      | some d =>
          cases hm : mapFind d.vars name with
          | some v => simp [envGet, hd, hm] at h
          | none =>
              cases hp : d.parent with
              | some p =>
                  simp only [envGet, hd, hm, hp] at h
                  exact ih p name h
              | none => simp [envGet, hd, hm, hp] at h

/-- C6: Executing `Call(name)` first resolves `name` via `env.get`:
a resolution failure propagates as-is (and is never `notAFunction`, by the
last conjunct); a resolved value whose tag is not `FUNC` fails with
`notAFunction name`; and a resolved `FunctionRef` is invoked with the
current environment passed as the call-site environment, its result being
the statement's result. -/
theorem call_stmt_dispatch :
    ∀ (fuel : Nat) (name : String) (env : Nat) (mode : String) (st : State),
      (∀ err, st.get env name = .error err →
        execute_stmt fuel (.callStmt name) env mode st = (.error err, st)) ∧
      (∀ fv, st.get env name = .ok fv → fv.type ≠ ValueType.FUNC →
        execute_stmt fuel (.callStmt name) env mode st = (.error (.notAFunction name), st)) ∧
      (∀ fv f, st.get env name = .ok fv → fv.type = ValueType.FUNC → fv.func_val = some f →
        execute_stmt fuel (.callStmt name) env mode st = Function.call fuel f env mode st) ∧
      (∀ fuel' e', envGet st.envs fuel' e' name ≠ .error (.notAFunction name)) := by
  intro fuel name env mode st
  refine ⟨?_, ?_, ?_, ?_⟩
  · intro err herr
    simp [execute_stmt, stepStmt, herr]
  · intro fv hok htype
    simp [execute_stmt, stepStmt, hok, htype]
  · intro fv f hok htype hfunc
    simp [execute_stmt, stepStmt, hok, htype, hfunc]
  · intro fuel' e'
    exact envGet_ne_notAFunction st.envs fuel' e' name

/-- A state whose root environment binds `n` to an integer and `h` to a
function — used to exercise both failure and success paths of CALL. -/
def wStCall : State :=
  { envs := [{ vars := [("n", Value.ofInt 3), ("h", Value.ofFunc wFun)], parent := none }],
    output := [] }

/-- C6 witness: in `wStCall`, `call q` fails with `unboundVariable "q"`
(the resolution failure propagates), `call n` fails with
`notAFunction "n"` (an integer is not a function), and `call h` invokes
`wFun` with the current environment `0` as call site. -/
theorem call_stmt_dispatch_witness :
    execute_stmt 1 (.callStmt "q") 0 "static" wStCall =
      (.error (.unboundVariable "q"), wStCall) ∧
    execute_stmt 1 (.callStmt "n") 0 "static" wStCall =
      (.error (.notAFunction "n"), wStCall) ∧
    execute_stmt 1 (.callStmt "h") 0 "static" wStCall =
      Function.call 1 wFun 0 "static" wStCall :=
  ⟨(call_stmt_dispatch 1 "q" 0 "static" wStCall).1 (.unboundVariable "q") rfl,
   (call_stmt_dispatch 1 "n" 0 "static" wStCall).2.1 (Value.ofInt 3) rfl (by decide),
   (call_stmt_dispatch 1 "h" 0 "static" wStCall).2.2.1 (Value.ofFunc wFun) wFun rfl rfl rfl⟩

/-! ## C7: the result of an invocation -/

/-- Executing `l ++ [s]` is executing `l` and then, if no failure occurred,
executing `s` — whose produced value is the whole sequence's result. -/
theorem stepStmts_append_single :
    ∀ (rc : Function → Nat → String → State → Except Err Value × State)
      (l : List Statement) (s : Statement) (env : Nat) (mode : String) (st : State)
      (acc : Value),
      stepStmts rc (l ++ [s]) env mode st acc =
        match stepStmts rc l env mode st acc with
        | (.ok _, st') => stepStmt rc s env mode st'
        | (.error e, st') => (.error e, st') := by
  intro rc l
  induction l with
  | nil =>
      intro s env mode st acc
      simp only [List.nil_append, stepStmts]
      cases h : stepStmt rc s env mode st with
      | mk r st' => cases r <;> simp [stepStmts]
  | cons s0 rest ih =>
      intro s env mode st acc
      simp only [List.cons_append, stepStmts]
      cases h : stepStmt rc s0 env mode st with
      | mk r st' => cases r <;> simp [stepStmts, ih]

/-- C7: An invocation's result value.  `Value.empty` is the
`Integer(0)`-equivalent default value; an invocation of a function with an
empty body returns it (the state gaining only the fresh child environment);
and for a body `l ++ [s]`, when execution completes without failure the
invocation's result is exactly the result of the last executed statement
`s`. -/
theorem invocation_returns_last_statement_value :
    ∀ (fuel : Nat) (f : Function) (call_env : Nat) (mode : String) (st : State),
      Value.empty = { type := .INT, int_val := some 0, func_val := none } ∧
      (f.body = [] →
        Function.call (fuel + 1) f call_env mode st =
          (.ok Value.empty,
           { st with
             envs := st.envs ++
               [{ vars := [],
                  parent := some (if mode = "static" then f.definition_env else call_env) }] })) ∧
      (∀ l s, f.body = l ++ [s] →
        Function.call (fuel + 1) f call_env mode st =
          match execute_stmts fuel l st.envs.length mode
              { st with
                envs := st.envs ++
                  [{ vars := [],
                     parent := some (if mode = "static" then f.definition_env else call_env) }] }
              Value.empty with
          | (.ok _, st') => execute_stmt fuel s st.envs.length mode st'
          | (.error e, st') => (.error e, st')) := by
  intro fuel f call_env mode st
  refine ⟨rfl, ?_, ?_⟩
  · intro hbody
    rw [Function.call, hbody]
    rfl
  · intro l s hbody
    rw [Function.call, hbody]
    exact stepStmts_append_single (Function.call fuel) l s st.envs.length mode _ Value.empty

/-- A function whose body is a single `print 4` statement. -/
def wFunPrint : Function :=
  { name := "p", body := [.print (.intLit 4)], definition_env := 0 }

/-- C7 witness: invoking the empty-bodied `wFun` returns the default
`Integer(0)` value, and invoking `wFunPrint` (body `[] ++ [print 4]`)
returns the value of its last (only) statement, `4`. -/
theorem invocation_returns_last_statement_value_witness :
    Function.call 1 wFun 0 "static" wSt =
      (.ok Value.empty,
       { wSt with envs := wSt.envs ++ [{ vars := [], parent := some 5 }] }) ∧
    Function.call 1 wFunPrint 0 "dynamic" wSt =
      execute_stmt 0 (.print (.intLit 4)) 1 "dynamic"
        { wSt with envs := wSt.envs ++ [{ vars := [], parent := some 0 }] } := by
  constructor
  · exact (invocation_returns_last_statement_value 0 wFun 0 "static" wSt).2.1 rfl
  · have h := (invocation_returns_last_statement_value 0 wFunPrint 0 "dynamic" wSt).2.2
      [] (.print (.intLit 4)) rfl
    simpa [execute_stmts, stepStmts] using h

/-! ## C8: invocation isolation -/

/-- A self-calling function: `def f(): print(y); y = 1; f()`.  Under dynamic
scoping its nested invocation looks `y` up through the enclosing
invocation's child environment. -/
def fCex : Function :=
  { name := "f",
    body := [.print (.var "y"), .assign "y" (.intLit 1), .callStmt "f"],
    definition_env := 0 }

/-- A state whose root environment binds `y = 5` and `f = fCex`. -/
def stCex : State :=
  { envs := [{ vars := [("y", Value.ofInt 5), ("f", Value.ofFunc fCex)], parent := none }],
    output := [] }

/-- C8 counterexample: two invocations of the *same* function `fCex`, the
second nested inside the first under dynamic scoping.  The outer invocation
prints the global `y = 5` and then assigns `y = 1` *locally* (into its own
fresh child environment — the root still binds `y = 5`, third conjunct).
The nested invocation's `print y` then emits `1`: it observed the other
invocation's locally-assigned variable, refuting the claim that this can
never happen.  Under static scoping the same program prints `5` twice
(second conjunct), isolating the dynamic parent chain as the cause. -/
theorem invocation_isolation_counterexample :
    (Function.call 2 fCex 0 "dynamic" stCex).2.output = [some 5, some 1] ∧
    (Function.call 2 fCex 0 "static" stCex).2.output = [some 5, some 5] ∧
    envGet (Function.call 2 fCex 0 "dynamic" stCex).2.envs 1 0 "y" =
      .ok (Value.ofInt 5) :=
  ⟨rfl, rfl, rfl⟩

/-- Does this environment's parent pointer (if any) name a strictly older
environment than slot `i`? -/
def parentBelow (d : Environment) (i : Nat) : Bool :=
  match d.parent with
  | none => true
  | some p => decide (p < i)

/-- Every environment from slot `i` on in this heap segment has a parent
strictly older than itself.  `parentLT envs 0` holds for every heap the
interpreter builds, since a child environment is appended at the end with a
parent that already existed. -/
def parentLT : List Environment → Nat → Bool
  | [], _ => true
  | d :: rest, i => parentBelow d i && parentLT rest (i + 1)

/-- Unfolding `parentLT`: each indexed entry has a parent below its index. -/
theorem parentLT_spec :
    ∀ (l : List Environment) (i j : Nat) (d : Environment) (p : Nat),
      parentLT l i = true → l[j]? = some d → d.parent = some p → p < i + j := by
  intro l
  induction l with
  | nil => intro i j d p _ hj; simp at hj
  | cons d0 rest ih =>
      intro i j d p hLT hj hp
      rw [parentLT, Bool.and_eq_true] at hLT
      cases j with
      | zero =>
          simp at hj
          subst hj
          have h0 := hLT.1
          rw [parentBelow, hp] at h0
          simpa using h0
      | succ j' =>
          simp only [List.getElem?_cons_succ] at hj
          have := ih (i + 1) j' d p hLT.2 hj hp
          omega

/-- On a parent-decreasing heap, modifying the local table of environment
`c1` is invisible to any lookup that starts strictly below `c1`: the chain
can only descend. -/
theorem envGet_envSet_below :
    ∀ (envs : List Environment) (c1 : Nat) (m : String) (w : Value),
      parentLT envs 0 = true →
      ∀ (fuel e : Nat) (n : String), e < c1 →
        envGet (envSet envs c1 m w) fuel e n = envGet envs fuel e n := by
  intro envs c1 m w hLT fuel
  induction fuel with
  | zero => intro e n _; rfl
  | succ fuel ih =>
      intro e n he
      have htab : (envSet envs c1 m w)[e]? = envs[e]? :=
        envSet_getElem_ne envs c1 m w e (by omega)
      cases hd : envs[e]? with
      | none => simp [envGet, htab, hd]
      | some d =>
          cases hm : mapFind d.vars n with
          | some v => simp [envGet, htab, hd, hm]
          | none =>
              cases hp : d.parent with
              | some p =>
                  have hpe : p < e := by
                    simpa using parentLT_spec envs 0 e d p hLT hd hp
                  simp only [envGet, htab, hd, hm, hp]
                  exact ih p n (by omega)
              | none => simp [envGet, htab, hd, hm, hp]

/-- C8 amended: invocation isolation holds whenever the observing
invocation's lookup chain cannot pass through the other invocation's child
environment.  Concretely: on a parent-decreasing heap (which the
interpreter's allocation discipline maintains), if invocation 2 executes in
child environment `c2` whose parent — the environment chosen by the scoping
rule — is strictly older than invocation 1's child `c1`, then any write into
`c1`'s local table (invocation 1's locally-assigned variables) leaves every
lookup of invocation 2 unchanged.  This covers static scoping, where the
chosen parent is the function's definition environment, created before
either invocation's child.  It is violated — see the counterexample — when
one invocation is nested inside the other under dynamic scoping, so that
`c2`'s chain passes through `c1` itself. -/
theorem invocation_isolation_amended :
    ∀ (envs : List Environment) (c1 c2 : Nat) (d : Environment) (m n : String)
      (w : Value) (fuel : Nat),
      parentLT envs 0 = true →
      c2 ≠ c1 →
      envs[c2]? = some d →
      (∀ p, d.parent = some p → p < c1) →
      envGet (envSet envs c1 m w) fuel c2 n = envGet envs fuel c2 n := by
  intro envs c1 c2 d m n w fuel hLT hne hc2 hpar
  cases fuel with
  | zero => rfl
  | succ fuel =>
      have htab : (envSet envs c1 m w)[c2]? = envs[c2]? :=
        envSet_getElem_ne envs c1 m w c2 hne
      cases hm : mapFind d.vars n with
      | some v => simp [envGet, htab, hc2, hm]
      | none =>
          cases hp : d.parent with
          | some p =>
              simp only [envGet, htab, hc2, hm, hp]
              exact envGet_envSet_below envs c1 m w hLT fuel p n (hpar p hp)
          | none => simp [envGet, htab, hc2, hm, hp]

/-- A three-environment heap shaped like two sequential static-mode
invocations: the root (id 0), invocation 1's child `c1 = 1` holding its
local `y = 1`, and invocation 2's child `c2 = 2` whose parent is the root. -/
def wEnvsIso : List Environment :=
  [{ vars := [("y", Value.ofInt 5)], parent := none },
   { vars := [("y", Value.ofInt 1)], parent := some 0 },
   { vars := [], parent := some 0 }]

/-- C8 amended witness: on `wEnvsIso`, overwriting `y` inside invocation 1's
child (id 1) does not change what invocation 2's lookup of `y` (starting at
its child, id 2) returns. -/
theorem invocation_isolation_amended_witness :
    envGet (envSet wEnvsIso 1 "y" (Value.ofInt 99)) 3 2 "y" = envGet wEnvsIso 3 2 "y" :=
  invocation_isolation_amended wEnvsIso 1 2 { vars := [], parent := some 0 } "y" "y"
    (Value.ofInt 99) 3 rfl (by omega) rfl
    (by intro p hp; injection hp with h; omega)

/-! ## C9: every mode other than the exact string "static" is dynamic -/

/-- `execute_expr` never consults the scoping mode. -/
theorem execute_expr_mode_irrel :
    ∀ (expr : Expr) (env : Nat) (m1 m2 : String) (st : State),
      execute_expr expr env m1 st = execute_expr expr env m2 st := by
  intro expr env m1 m2 st
  cases expr <;> rfl

/-- A single statement step treats two modes identically as soon as the
call-back used for CALL does. -/
theorem stepStmt_mode_congr :
    ∀ (rc : Function → Nat → String → State → Except Err Value × State) (m1 m2 : String),
      (∀ f e st, rc f e m1 st = rc f e m2 st) →
      ∀ (stmt : Statement) (env : Nat) (st : State),
        stepStmt rc stmt env m1 st = stepStmt rc stmt env m2 st := by
  intro rc m1 m2 hrc stmt env st
  cases stmt with
  | assign name expr =>
      simp only [stepStmt, execute_expr_mode_irrel expr env m1 m2 st]
  | print expr =>
      simp only [stepStmt, execute_expr_mode_irrel expr env m1 m2 st]
  | callStmt name =>
      simp only [stepStmt]
      cases st.get env name with
      | error e => rfl
      | ok fv =>
          cases h : decide (fv.type = ValueType.FUNC) with
          | false => simp [of_decide_eq_false h]
          | true =>
              simp only [if_pos (of_decide_eq_true h)]
              cases fv.func_val with
              | none => rfl
              | some f => exact hrc f env st
  | defn name body => rfl

/-- A statement sequence treats two modes identically as soon as the
call-back does. -/
theorem stepStmts_mode_congr :
    ∀ (rc : Function → Nat → String → State → Except Err Value × State) (m1 m2 : String),
      (∀ f e st, rc f e m1 st = rc f e m2 st) →
      ∀ (stmts : List Statement) (env : Nat) (st : State) (acc : Value),
        stepStmts rc stmts env m1 st acc = stepStmts rc stmts env m2 st acc := by
  intro rc m1 m2 hrc stmts
  induction stmts with
  | nil => intro env st acc; rfl
  | cons s rest ih =>
      intro env st acc
      simp only [stepStmts, stepStmt_mode_congr rc m1 m2 hrc s env st]
      cases stepStmt rc s env m2 st with
      | mk r st' => cases r <;> simp [ih]

/-- Two mode strings that are both different from `"static"` drive
`Function::call` to identical results, at every fuel. -/
theorem call_mode_congr :
    ∀ (fuel : Nat) (m1 m2 : String), m1 ≠ "static" → m2 ≠ "static" →
      ∀ (f : Function) (call_env : Nat) (st : State),
        Function.call fuel f call_env m1 st = Function.call fuel f call_env m2 st := by
  intro fuel
  induction fuel with
  | zero => intro m1 m2 _ _ f call_env st; rfl
  | succ fuel ih =>
      intro m1 m2 h1 h2 f call_env st
      simp only [Function.call, if_neg h1, if_neg h2]
      exact stepStmts_mode_congr (Function.call fuel) m1 m2
        (fun f' e' st' => ih m1 m2 h1 h2 f' e' st') f.body st.envs.length _ Value.empty

/-- C9: the scoping mode is an exact string match against `"static"` at each
invocation.  For every mode string other than `"static"` — misspellings like
`"Static"` or the empty string included — `Function::call` silently parents
the fresh child on the call-site environment, and the whole invocation
behaves exactly as mode `"dynamic"` does; no mode is ever rejected. -/
theorem unrecognized_mode_behaves_dynamic :
    ∀ (mode : String), mode ≠ "static" →
      (∀ (fuel : Nat) (f : Function) (call_env : Nat) (st : State),
        Function.call (fuel + 1) f call_env mode st =
          execute_stmts fuel f.body st.envs.length mode
            { st with envs := st.envs ++ [{ vars := [], parent := some call_env }] }
            Value.empty) ∧
      (∀ (fuel : Nat) (f : Function) (call_env : Nat) (st : State),
        Function.call fuel f call_env mode st =
          Function.call fuel f call_env "dynamic" st) := by
  intro mode hmode
  constructor
  · intro fuel f call_env st
    simp only [Function.call, if_neg hmode]
    rfl
  · intro fuel f call_env st
    exact call_mode_congr fuel mode "dynamic" hmode (by decide) f call_env st

/-- C9 witness: the misspelled mode `"Static"` makes an invocation of
`fCex` behave exactly as `"dynamic"` does. -/
theorem unrecognized_mode_behaves_dynamic_witness :
    Function.call 2 fCex 0 "Static" stCex = Function.call 2 fCex 0 "dynamic" stCex :=
  (unrecognized_mode_behaves_dynamic "Static" (by decide)).2 2 fCex 0 stCex

/-! ## C10: PRINT emits the possibly-uninitialized int_val field -/

/-- The program `def f(): pass; print(f)`: the PRINT's expression resolves
to the FunctionRef value bound by the DEF. -/
def printFuncProgram : List Statement :=
  [.defn "f" [], .print (.var "f")]

/-- C10: `execute_stmt` on a PRINT emits the evaluated value's `int_val`
field unconditionally — it never inspects the type tag and never fails on a
FUNC-tagged value (second conjunct).  The `Value(Function*)` constructor
leaves `int_val` uninitialized (modelled as `none`, first conjunct), so
printing a variable bound by a DEF succeeds and emits the indeterminate
content of an uninitialized field: running `def f(): pass; print(f)` ends
without failure with output `[none]` (last two conjuncts). -/
theorem print_emits_uninitialized_int_val :
    (∀ f : Function, (Value.ofFunc f).int_val = none) ∧
    (∀ (rc : Function → Nat → String → State → Except Err Value × State)
       (expr : Expr) (env : Nat) (mode : String) (st : State) (v : Value),
      execute_expr expr env mode st = .ok v →
      stepStmt rc (.print expr) env mode st =
        (.ok v, { st with output := st.output ++ [v.int_val] })) ∧
    (run_program 10 printFuncProgram "static").2.output = [none] ∧
    resOk (run_program 10 printFuncProgram "static") = true := by
  refine ⟨fun f => rfl, ?_, rfl, rfl⟩
  intro rc expr env mode st v h
  simp [stepStmt, h]

/-- C10 witness: printing the literal `4` emits `some 4` — an instance of
the PRINT conjunct with its evaluation hypothesis discharged concretely. -/
theorem print_emits_uninitialized_int_val_witness :
    stepStmt (Function.call 0) (.print (.intLit 4)) 0 "static" wSt =
      (.ok (Value.ofInt 4), { wSt with output := wSt.output ++ [(Value.ofInt 4).int_val] }) :=
  print_emits_uninitialized_int_val.2.1 (Function.call 0) (.intLit 4) 0 "static" wSt
    (Value.ofInt 4) rfl
